import Mathlib

/-!
Shallow embedding of `src/mapper.go` (package `mapper`): a registry that maps
opaque tokens (addresses of freshly allocated `mapperKey` markers) to Go
values, backed by a `sync.Map`.

Modelling decisions, all read off the Go source:

* A Go `interface{}` value used as a `sync.Map` key carries a dynamic type and
  a value; two interface keys are equal iff the dynamic types are identical
  and the values are equal.  `New` stores keys of dynamic type `*mapperKey`
  (line 42, `mapper.m.Store(k, v)` with `k : *mapperKey`), `Get` looks up with
  dynamic type `*mapperKey` (line 49, `mapper.m.Load((*mapperKey)(k))`), while
  `Delete` passes `k` of dynamic type `unsafe.Pointer` unconverted (line 58,
  `mapper.m.Delete(k)`).  `SyncKey` records that tag.
* Heap addresses are natural numbers; allocating a `mapperKey` (a struct of
  one `uint8`, size 1) at address `a` advances the allocator by its size, so
  a zero-size marker would reuse the address, exactly the hazard the comment
  on `mapperKey` (lines 18-21) describes.
* `sync.Map` is modelled as an association list with the store/load/delete
  operations; values are Go `interface{}` payloads `GoValue` (including the
  `nil` interface).
* `panic(fmt.Errorf(...))` in `Get` is modelled by `Except.error` carrying
  the formatted message; `%p` formats an address as `0x` plus lowercase hex.
-/

/-- A Go value stored in the mapper: the `interface{}` payload.  `nil` is the
nil interface; strings, integers and pairs stand in for arbitrary values. -/
inductive GoValue where
  | nil
  | str (s : String)
  | int (n : Int)
  | pair (a b : GoValue)
  deriving DecidableEq, Repr

/-- A `sync.Map` key as a Go interface value: dynamic type tag plus the
pointer's address.  `mapperKeyPtr a` is a `*mapperKey` pointing at address
`a`; `unsafePtr a` is an `unsafe.Pointer` holding the same address.  Go
interface equality requires the dynamic types to match, so
`mapperKeyPtr a ≠ unsafePtr a`. -/
inductive SyncKey where
  | mapperKeyPtr (addr : Nat)
  | unsafePtr (addr : Nat)
  deriving DecidableEq, Repr

/-- The contents of the `sync.Map`: an association list from interface keys
to stored values (keys are unique in any reachable state). -/
abbrev SyncMap := List (SyncKey × GoValue)

/-- `sync.Map.Store`: replace the binding of `k` if present, else append. -/
def syncStore : SyncMap → SyncKey → GoValue → SyncMap
  | [], k, v => [(k, v)]
  | p :: rest, k, v =>
      if p.1 = k then (k, v) :: rest else p :: syncStore rest k v

/-- `sync.Map.Load`: the value bound to `k`, with the `ok` flag as `Option`. -/
def syncLoad : SyncMap → SyncKey → Option GoValue
  | [], _ => none
  | p :: rest, k => if p.1 = k then some p.2 else syncLoad rest k

/-- `sync.Map.Delete`: remove the binding of `k` if present. -/
def syncDelete (l : SyncMap) (k : SyncKey) : SyncMap :=
  l.filter fun p => !decide (p.1 = k)

/-- `type Mapper struct { m sync.Map }` (src/mapper.go lines 14-16). -/
structure Mapper where
  m : SyncMap
  deriving DecidableEq, Repr

/-- Size in bytes of `mapperKey` (lines 18-21): one `uint8` field, kept
non-empty so that distinct allocations have distinct addresses. -/
def mapperKeySizeof : Nat := 1

/-- `var G Mapper` (line 25): the global mapper, starting at Go's zero value,
whose `sync.Map` holds no entries. -/
def G : Mapper := ⟨[]⟩

/-- `func (mapper *Mapper) New(v interface{}) unsafe.Pointer` (lines 32-44).
`heap` is the allocator's next free address: `k := &mapperKey{}` allocates
the marker there and advances the allocator by the marker's size.  Returns
the updated mapper, the updated allocator, and the token
`unsafe.Pointer(k)`, i.e. the marker's address. -/
def Mapper.new (mapper : Mapper) (heap : Nat) (v : GoValue) :
    Mapper × Nat × Nat :=
  (⟨syncStore mapper.m (SyncKey.mapperKeyPtr heap) v⟩,
   heap + mapperKeySizeof, heap)

/-- `func (mapper *Mapper) Get(k unsafe.Pointer) (v interface{})`
(lines 47-54): load under the key `(*mapperKey)(k)`; on a miss,
`panic(fmt.Errorf("mapper: ptr not mapped: %p", k))`, modelled as
`Except.error` carrying the formatted message. -/
def Mapper.get (mapper : Mapper) (k : Nat) : Except String GoValue :=
  match syncLoad mapper.m (SyncKey.mapperKeyPtr k) with
  | some v => Except.ok v
  | none => Except.error ("mapper: ptr not mapped: 0x" ++
      String.mk (Nat.toDigits 16 k))

/-- `func (mapper *Mapper) Delete(k unsafe.Pointer)` (lines 56-59):
`mapper.m.Delete(k)` passes `k` with dynamic type `unsafe.Pointer`
(no conversion to `*mapperKey`), so the deleted key is `unsafePtr k`. -/
def Mapper.delete (mapper : Mapper) (k : Nat) : Mapper :=
  ⟨syncDelete mapper.m (SyncKey.unsafePtr k)⟩

/-- Program state for a sequential trace: the mapper plus the allocator. -/
structure PState where
  mapper : Mapper
  heap : Nat
  deriving DecidableEq, Repr

/-- One API call. -/
inductive Op where
  | new (v : GoValue)
  | get (k : Nat)
  | del (k : Nat)
  deriving DecidableEq, Repr

/-- The caller-visible result of one API call. -/
inductive Res where
  | tok (k : Nat)
  | val (r : Except String GoValue)
  | done
  deriving Repr

/-- Execute one API call on the state. -/
def stepOp (s : PState) : Op → PState × Res
  | Op.new v =>
      let r := s.mapper.new s.heap v
      (⟨r.1, r.2.1⟩, Res.tok r.2.2)
  | Op.get k => (s, Res.val (s.mapper.get k))
  | Op.del k => (⟨s.mapper.delete k, s.heap⟩, Res.done)

/-- Execute a sequence of API calls, collecting results. -/
def runOps (s : PState) : List Op → PState × List Res
  | [] => (s, [])
  | op :: ops =>
      let sr := stepOp s op
      let rest := runOps sr.1 ops
      (rest.1, sr.2 :: rest.2)

/-- The tokens returned by the `New` calls of a trace. -/
def resTokens : List Res → List Nat
  | [] => []
  | Res.tok k :: rs => k :: resTokens rs
  | _ :: rs => resTokens rs

/-- Well-formedness of a mapper state: every key in the store was put there
by `New`, hence has dynamic type `*mapperKey`.  Every reachable state
satisfies this, because `Store` is only ever called with a `*mapperKey`. -/
def Mapper.WF (mapper : Mapper) : Prop :=
  ∀ p ∈ mapper.m, ∃ a, p.1 = SyncKey.mapperKeyPtr a

theorem syncLoad_syncStore_self (l : SyncMap) (k : SyncKey) (v : GoValue) :
    syncLoad (syncStore l k v) k = some v := by
  induction l with
  | nil => simp [syncStore, syncLoad]
  | cons p rest ih =>
      by_cases h : p.1 = k
      · simp [syncStore, syncLoad, h]
      · simp [syncStore, syncLoad, h, ih]

theorem syncDelete_of_no_unsafe_keys (mapper : Mapper) (k : Nat)
    (hwf : mapper.WF) : syncDelete mapper.m (SyncKey.unsafePtr k) = mapper.m := by
  refine List.filter_eq_self.mpr fun p hp => ?_
  obtain ⟨a, ha⟩ := hwf p hp
  simp [ha]

theorem resTokens_lower_bound (ops : List Op) (s : PState) (t : Nat)
    (ht : t ∈ resTokens (runOps s ops).2) : s.heap ≤ t := by
  induction ops generalizing s with
  | nil => simp [runOps, resTokens] at ht
  | cons op ops ih =>
      cases op with
      | new v =>
          simp only [runOps, stepOp, Mapper.new, resTokens,
            List.mem_cons] at ht
          rcases ht with rfl | ht
          · exact Nat.le_refl _
          · have h2 := ih ⟨_, s.heap + mapperKeySizeof⟩ ht
            simp only [mapperKeySizeof] at h2
            omega
      | get k =>
          simp only [runOps, stepOp, resTokens] at ht
          exact ih s ht
      | del k =>
          simp only [runOps, stepOp, resTokens] at ht
          exact ih ⟨s.mapper.delete k, s.heap⟩ ht

theorem resTokens_nodup (ops : List Op) (s : PState) :
    (resTokens (runOps s ops).2).Nodup := by
  induction ops generalizing s with
  | nil => simp [runOps, resTokens]
  | cons op ops ih =>
      cases op with
      | new v =>
          simp only [runOps, stepOp, Mapper.new, resTokens]
          refine List.nodup_cons.mpr ⟨fun hmem => ?_, ih _⟩
          have hlb := resTokens_lower_bound ops
            ⟨_, s.heap + mapperKeySizeof⟩ _ hmem
          simp only [mapperKeySizeof] at hlb
          omega
      | get k =>
          simp only [runOps, stepOp, resTokens]
          exact ih s
      | del k =>
          simp only [runOps, stepOp, resTokens]
          exact ih _

theorem runOps_append_state (s : PState) (as bs : List Op) :
    (runOps s (as ++ bs)).1 = (runOps (runOps s as).1 bs).1 := by
  induction as generalizing s with
  | nil => simp [runOps]
  | cons a as ih => simp [runOps, ih]

/-- Claim C1: the spec says that after `Delete(t)` where `t = New(v)`, a
subsequent `Get(t)` hits the fatal unmapped-lookup panic.  Evaluating the
code at that very scenario shows the opposite: `Delete` passes the token
with dynamic type `unsafe.Pointer` while the stored key has dynamic type
`*mapperKey`, so the mapping survives and `Get` still returns the stored
value instead of panicking. -/
theorem get_after_delete_still_returns_value :
    (((G.new 0 (GoValue.str "alpha")).1.delete
        (G.new 0 (GoValue.str "alpha")).2.2).get
      (G.new 0 (GoValue.str "alpha")).2.2) =
      Except.ok (GoValue.str "alpha") := rfl

/-- Claim C2: round-trip — for every value `v` (nil included) and every
mapper state, the token returned by `New v` immediately looks up to exactly
the stored value `v`, unchanged. -/
theorem get_after_new_roundtrip (mapper : Mapper) (heap : Nat) (v : GoValue) :
    ((mapper.new heap v).1).get (mapper.new heap v).2.2 = Except.ok v := by
  have h := syncLoad_syncStore_self mapper.m (SyncKey.mapperKeyPtr heap) v
  simp [Mapper.new, Mapper.get, h]

/-- Claim C3: token distinctness — along any sequential trace of API calls
from any starting state, the tokens returned by the `New` calls are pairwise
distinct (regardless of the stored values), and the `mapperKey` marker has
positive size, so each call occupies a fresh allocation. -/
theorem new_tokens_pairwise_distinct (s : PState) (ops : List Op) :
    (resTokens (runOps s ops).2).Nodup ∧ 0 < mapperKeySizeof :=
  ⟨resTokens_nodup ops s, by decide⟩

/-- Claim C4: `Get` fails fast on any token not currently mapped (never
issued, deleted, or issued by another instance): it panics with a diagnostic
naming the offending token, and never returns any value. -/
theorem get_unmapped_panics_with_token (mapper : Mapper) (k : Nat)
    (h : syncLoad mapper.m (SyncKey.mapperKeyPtr k) = none) :
    mapper.get k = Except.error ("mapper: ptr not mapped: 0x" ++
      String.mk (Nat.toDigits 16 k)) ∧ ∀ v, mapper.get k ≠ Except.ok v := by
  constructor
  · simp [Mapper.get, h]
  · intro v hv
    simp [Mapper.get, h] at hv

/-- Witness for C4: registry B holds only the token `1` it issued itself;
token `0` issued by registry A is unmapped on B, and `Get` on B panics with
a diagnostic naming `0x0`. -/
theorem get_unmapped_panics_with_token_witness :
    syncLoad ((G.new 1 (GoValue.str "b")).1).m (SyncKey.mapperKeyPtr 0) =
      none ∧
    (((G.new 1 (GoValue.str "b")).1).get 0 =
      Except.error ("mapper: ptr not mapped: 0x" ++
        String.mk (Nat.toDigits 16 0)) ∧
      ∀ v, ((G.new 1 (GoValue.str "b")).1).get 0 ≠ Except.ok v) :=
  ⟨rfl, get_unmapped_panics_with_token ((G.new 1 (GoValue.str "b")).1) 0 rfl⟩

/-- Claim C5: idempotent delete — on any well-formed mapper state, deleting
a token that is not currently mapped leaves the state exactly unchanged, and
the immediately repeated delete is likewise a no-op (and `Delete` signals no
error by construction: it returns no result and cannot panic). -/
theorem delete_unmapped_noop_idempotent (mapper : Mapper) (k : Nat)
    (hwf : mapper.WF)
    (_hun : syncLoad mapper.m (SyncKey.mapperKeyPtr k) = none) :
    mapper.delete k = mapper ∧
      (mapper.delete k).delete k = mapper.delete k := by
  have h : mapper.delete k = mapper := by
    show (⟨syncDelete mapper.m (SyncKey.unsafePtr k)⟩ : Mapper) = mapper
    rw [syncDelete_of_no_unsafe_keys mapper k hwf]
  exact ⟨h, by rw [h]; exact h⟩

/-- Witness for C5: the registry holding only the token `0` it issued is
well formed, the token `5` is unmapped on it, and deleting `5` once or twice
leaves the registry unchanged. -/
theorem delete_unmapped_noop_idempotent_witness :
    Mapper.WF ((G.new 0 GoValue.nil).1) ∧
    syncLoad ((G.new 0 GoValue.nil).1).m (SyncKey.mapperKeyPtr 5) = none ∧
    (((G.new 0 GoValue.nil).1).delete 5 = (G.new 0 GoValue.nil).1 ∧
      (((G.new 0 GoValue.nil).1).delete 5).delete 5 =
        ((G.new 0 GoValue.nil).1).delete 5) := by
  have hwf : Mapper.WF ((G.new 0 GoValue.nil).1) := by
    intro p hp
    simp [G, Mapper.new, syncStore] at hp
    exact ⟨0, by rw [hp]⟩
  exact ⟨hwf, rfl, delete_unmapped_noop_idempotent _ 5 hwf rfl⟩

/-- Claim C6: the spec's end-to-end example.  Evaluating the code:
`t1 := New("alpha")` and `t2 := New("alpha")` are distinct and both look up
to `"alpha"`, but after `Delete(t1)` the lookup `Get(t1)` is NOT fatal — it
still returns `"alpha"`, because `Delete` removes under the interface key
`unsafe.Pointer` while the store holds `*mapperKey` keys.  `Get(t2)` still
returns `"alpha"` as the example expects. -/
theorem end_to_end_example_divergence :
    (G.new 0 (GoValue.str "alpha")).2.2 ≠
      ((G.new 0 (GoValue.str "alpha")).1.new 1 (GoValue.str "alpha")).2.2 ∧
    ((G.new 0 (GoValue.str "alpha")).1.new 1 (GoValue.str "alpha")).1.get
      (G.new 0 (GoValue.str "alpha")).2.2 =
        Except.ok (GoValue.str "alpha") ∧
    (((G.new 0 (GoValue.str "alpha")).1.new 1 (GoValue.str "alpha")).1.delete
        (G.new 0 (GoValue.str "alpha")).2.2).get
      (G.new 0 (GoValue.str "alpha")).2.2 =
        Except.ok (GoValue.str "alpha") ∧
    (((G.new 0 (GoValue.str "alpha")).1.new 1 (GoValue.str "alpha")).1.delete
        (G.new 0 (GoValue.str "alpha")).2.2).get
      ((G.new 0 (GoValue.str "alpha")).1.new 1 (GoValue.str "alpha")).2.2 =
        Except.ok (GoValue.str "alpha") :=
  ⟨by decide, rfl, rfl, rfl⟩

/-- Claim C7: `Get` is a pure observation — a `Get` step returns the state
it was given, and inserting a `Get` anywhere into a trace of API calls does
not change the final state of the trace. -/
theorem get_is_pure_observation (s : PState) (k : Nat) (as bs : List Op) :
    (stepOp s (Op.get k)).1 = s ∧
    (runOps s (as ++ Op.get k :: bs)).1 = (runOps s (as ++ bs)).1 := by
  refine ⟨rfl, ?_⟩
  rw [runOps_append_state, runOps_append_state]
  simp [runOps, stepOp]

/-- Claim C9: a mapping whose stored value is the nil interface is
distinguished from an absent mapping — `Get` on the token of `New nil`
returns `nil` successfully, because success is decided by the store's
membership flag, not by the stored value. -/
theorem get_of_nil_value_succeeds (mapper : Mapper) (heap : Nat) :
    ((mapper.new heap GoValue.nil).1).get
        (mapper.new heap GoValue.nil).2.2 = Except.ok GoValue.nil := by
  have h := syncLoad_syncStore_self mapper.m
    (SyncKey.mapperKeyPtr heap) GoValue.nil
  simp [Mapper.new, Mapper.get, h]

/-- Claim C10: the zero value of `Mapper` (the global `G`, declared without
initialization) is a valid empty registry: `Get` of any token panics as
unmapped, `Delete` of any token is a no-op, and `New` followed by `Get`
round-trips, all without a constructor. -/
theorem zero_value_mapper_empty_registry :
    (∀ k, G.get k = Except.error ("mapper: ptr not mapped: 0x" ++
        String.mk (Nat.toDigits 16 k))) ∧
    (∀ k, G.delete k = G) ∧
    (∀ heap v, ((G.new heap v).1).get (G.new heap v).2.2 = Except.ok v) := by
  refine ⟨fun k => rfl, fun k => rfl, fun heap v => ?_⟩
  have h := syncLoad_syncStore_self G.m (SyncKey.mapperKeyPtr heap) v
  simp [Mapper.new, Mapper.get, h]
